import Mathlib

/-!
# License middleware: lifecycle and request gate

A shallow embedding of `middleware/middleware.go` (package `middleware`):

* `ShutdownBackgroundRefresh`      (lines 14-29)
* `startBackgroundRefreshOnce`     (lines 33-46, with the package globals)
* `Middleware` and the handler it returns (lines 51-80)

Process state is an explicit `World` value that every operation transforms.
Each mutex-protected method body runs as one atomic transition (the whole
body is inside the critical section), so an execution is a sequence of
transitions in the order in which the critical sections were entered.
Observable effects (calls of cancel functions, log lines, calls of
collaborators) are appended, in program order, to `World.trace`.
-/

namespace LicenseGate

/-! ## Data model -/

/-- Identity of a `context.CancelFunc` value. -/
abbrev Handle := Nat

/-- Identity of a `*LicenseClient` value (the receiver `v`). -/
abbrev ClientId := Nat

/-- The `context.Context` values the package builds or receives. -/
inductive Context where
  | background : Context
  | request (id : Nat) : Context
  | withCancel (parent : Context) : Context
  | withTimeout (parent : Context) (d : Int) : Context
deriving DecidableEq, Repr

/-- The fields of `v.bgConfig` used by the package (`mu` is the lock that makes
each method body atomic). `cancel = none` is the nil function value. -/
structure BgConfig where
  started : Bool
  cancel : Option Handle
deriving DecidableEq, Repr

/-- The result value of `Validate`. -/
structure ValidationResult where
  Valid : Bool
  ExpiryDaysLeft : Int
deriving DecidableEq, Repr

/-- Observable effects, recorded in program order. -/
inductive Event where
  /-- A line written by `log.Println` or `log.Printf`. -/
  | log (msg : String) : Event
  /-- A call `f()` of a cancel-function value; `none` is a call of nil. -/
  | cancelCall (f : Option Handle) : Event
  /-- The call `v.StartBackgroundRefresh(ctx)` made by the once-guard. -/
  | startCall (v : ClientId) (ctx : Context) : Event
  /-- A background refresh task launched for `v`, bound to `ctx`. -/
  | launch (v : ClientId) (ctx : Context) : Event
  /-- The call `context.WithTimeout(parent, d)`, returning cancel function `h`. -/
  | withTimeout (parent : Context) (d : Int) (h : Handle) : Event
  /-- Entry into `v.Validate(ctx)`. -/
  | validateCall (v : ClientId) (ctx : Context) : Event
  /-- Return from `v.Validate`. -/
  | validateReturn (v : ClientId) : Event
  /-- The call `c.Status(code)`. -/
  | status (code : Nat) : Event
  /-- The call `c.JSON(..)`, with the encoded body. -/
  | json (body : String) : Event
  /-- The call `c.Set(key, value)`. -/
  | setHeader (key value : String) : Event
  /-- The call `c.Next()`. -/
  | next : Event
deriving DecidableEq, Repr

/-- Process state: the package global `bgRefreshStarted`, the `bgConfig` and
`cli.Timeout` of every client, the allocator of cancel functions, and the
effect trace. -/
structure World where
  bgRefreshStarted : Bool
  bgConfig : ClientId → BgConfig
  cliTimeout : ClientId → Int
  nextHandle : Nat
  trace : List Event

/-- Process initialisation: `bgRefreshStarted = false` (line 34), every
`bgConfig` the zero value, nothing observed yet. -/
def World.init (timeout : ClientId → Int) : World :=
  { bgRefreshStarted := false
    bgConfig := fun _ => { started := false, cancel := none }
    cliTimeout := timeout
    nextHandle := 0
    trace := [] }

/-- The events appended to the trace between `w` and a later state `w2`. -/
def newEvents (w w2 : World) : List Event :=
  w2.trace.drop w.trace.length

/-! ## Lifecycle -/

/-- Method `ShutdownBackgroundRefresh` (lines 14-29). -/
def ShutdownBackgroundRefresh (w : World) (v : ClientId) : World :=
  if !(w.bgConfig v).started then
    w
  else
    let w1 : World :=
      if (w.bgConfig v).cancel != none then
        { w with
          trace := w.trace ++
            [Event.cancelCall (w.bgConfig v).cancel,
             Event.log "[license-sdk] Background license validation stopped"]
          bgConfig := Function.update w.bgConfig v
            { (w.bgConfig v) with cancel := none } }
      else
        w
    { w1 with
      bgConfig := Function.update w1.bgConfig v
        { (w1.bgConfig v) with started := false } }

/-- Modelled from the spec: `StartBackgroundRefresh` is a method of
`LicenseClient` defined outside `middleware.go`. Spec 4.1 (Start): if
`started` is true it is a no-op; otherwise it derives a cancellable child
context from the parent, stores its cancellation handle, sets `started`, and
launches the background refresh task bound to that context. -/
def StartBackgroundRefresh (w : World) (v : ClientId) (parent : Context) : World :=
  if (w.bgConfig v).started then
    w
  else
    { w with
      nextHandle := w.nextHandle + 1
      bgConfig := Function.update w.bgConfig v
        { started := true, cancel := some w.nextHandle }
      trace := w.trace ++ [Event.launch v (Context.withCancel parent)] }

/-- Method `startBackgroundRefreshOnce` (lines 38-46), with the package globals of
lines 33-36. -/
def startBackgroundRefreshOnce (w : World) (v : ClientId) : World :=
  if !w.bgRefreshStarted then
    StartBackgroundRefresh
      { w with
        bgRefreshStarted := true
        trace := w.trace ++ [Event.startCall v Context.background] }
      v Context.background
  else
    w

/-! ## Rendering -/

/-- The digit loop of `fmt`'s integer formatting in base 10: while `u >= 10`
the low digit is written in front of `buf` and `u` is divided by 10; the last
digit is written when `u < 10`. The first argument bounds the iterations. -/
def fmtDigits : Nat → Nat → List Char → List Char
  | 0, u, buf => Nat.digitChar u :: buf
  | fuel + 1, u, buf =>
    if 10 ≤ u then fmtDigits fuel (u / 10) (Nat.digitChar (u % 10) :: buf)
    else Nat.digitChar u :: buf

/-- Result of `fmt.Sprintf("%d", n)` for a signed integer: the digits of the magnitude,
preceded by `-` when `n` is negative. -/
def sprintfD (n : Int) : String :=
  String.mk (if n < 0 then '-' :: fmtDigits n.natAbs n.natAbs []
    else fmtDigits n.natAbs n.natAbs [])

/-- Value of a decimal digit character. -/
def digitVal (c : Char) : Nat := c.toNat - 48

/-- Reading a digit string as a base-10 numeral, most significant digit first. -/
def parseNat (cs : List Char) : Nat :=
  cs.foldl (fun a c => 10 * a + digitVal c) 0

/-- Reading a decimal integer: an optional leading `-` followed by one or more
decimal digits; anything else is rejected. -/
def parseDecimal (s : String) : Option Int :=
  match s.data with
  | [] => none
  | '-' :: ds =>
    if ds ≠ [] ∧ ds.all Char.isDigit then some (-(parseNat ds : Int)) else none
  | ds => if ds.all Char.isDigit then some (parseNat ds : Int) else none

/-- JSON string literal for text without control characters: quotes and
backslashes are escaped, the rest is copied. -/
def jsonString (s : String) : String :=
  String.mk ('"' :: (s.data.flatMap fun ch =>
    if ch = '"' ∨ ch = '\\' then ['\\', ch] else [ch]) ++ ['"'])

/-- JSON text of a `fiber.Map` with a single string-valued entry. -/
def jsonObject1 (key value : String) : String :=
  "\x7b" ++ jsonString key ++ ":" ++ jsonString value ++ "\x7d"

/-! ## The request context -/

/-- The parts of `*fiber.Ctx` the handler touches: the request's context and
the response under construction. -/
structure FiberCtx where
  context : Context
  status : Nat
  headers : List (String × String)
  body : String
deriving DecidableEq, Repr

/-- The call `c.Status(code)`. -/
def FiberCtx.Status (c : FiberCtx) (code : Nat) : FiberCtx :=
  { c with status := code }

/-- The call `c.Set(key, value)`: the response header `key` now has exactly `value`. -/
def FiberCtx.Set (c : FiberCtx) (key value : String) : FiberCtx :=
  { c with headers := (key, value) :: c.headers.filter (fun p => p.1 != key) }

/-- The call `c.JSON` on a `fiber.Map` with one entry: the body is the encoded object, the
content type is JSON, and the returned error is nil. -/
def FiberCtx.JSON (c : FiberCtx) (key value : String) : FiberCtx × Option String :=
  ({ (c.Set "Content-Type" "application/json") with body := jsonObject1 key value }, none)

/-- Response header lookup. -/
def FiberCtx.header (c : FiberCtx) (key : String) : Option String :=
  c.headers.lookup key

/-- The rest of the handler chain, run by `c.Next()`: it may rewrite the
response and returns an error or nil. -/
abbrev NextHandler := FiberCtx → FiberCtx × Option String

/-- The collaborator `v.Validate(ctx)`: an error message, or a result. -/
abbrev Validator := Context → Except String ValidationResult

/-! ## The gate -/

/-- Lines 59-78 of the handler: everything between `defer cancel()` and the
return. Yields the effects in program order, the response, and the returned
error. -/
def handlerBody (validate : Validator) (next : NextHandler) (v : ClientId)
    (ctx : Context) (c : FiberCtx) : List Event × FiberCtx × Option String :=
  match validate ctx with
  | Except.error msg =>
    let r := (c.Status 401).JSON "error" "License validation failed"
    ([Event.validateCall v ctx, Event.validateReturn v,
      Event.log ("[license-sdk] License validation failed: " ++ msg),
      Event.status 401, Event.json r.1.body], r.1, r.2)
  | Except.ok res =>
    if !res.Valid then
      let r := (c.Status 403).JSON "error" "Invalid license"
      ([Event.validateCall v ctx, Event.validateReturn v,
        Event.log ("[license-sdk] Invalid license detected (expires in "
          ++ sprintfD res.ExpiryDaysLeft ++ " days)"),
        Event.status 403, Event.json r.1.body], r.1, r.2)
    else
      let c1 := c.Set "X-License-Expiry-Days" (sprintfD res.ExpiryDaysLeft)
      let r := next c1
      ([Event.validateCall v ctx, Event.validateReturn v,
        Event.setHeader "X-License-Expiry-Days" (sprintfD res.ExpiryDaysLeft),
        Event.next], r.1, r.2)

/-- The function returned by `Middleware` (lines 54-79): derive the timeout
context, run the body, and run the deferred `cancel()` last. -/
def handler (validate : Validator) (next : NextHandler) (v : ClientId)
    (w : World) (c : FiberCtx) : World × FiberCtx × Option String :=
  let h := w.nextHandle
  let ctx := Context.withTimeout c.context (w.cliTimeout v)
  let r := handlerBody validate next v ctx c
  ({ w with
     nextHandle := h + 1
     trace := w.trace ++ [Event.withTimeout c.context (w.cliTimeout v) h] ++ r.1
       ++ [Event.cancelCall (some h)] },
   r.2.1, r.2.2)

/-- The type of the per-request function `Middleware` returns. -/
abbrev Handler := Validator → NextHandler → World → FiberCtx → World × FiberCtx × Option String

/-- Method `Middleware` (lines 51-80): run the once-guard, return the handler bound
to `v`. -/
def Middleware (w : World) (v : ClientId) : World × Handler :=
  (startBackgroundRefreshOnce w v, fun validate next => handler validate next v)

/-- The operations of the package a process can perform. -/
inductive Op where
  | middleware (v : ClientId) : Op
  | startOnce (v : ClientId) : Op
  | request (v : ClientId) (validate : Validator) (next : NextHandler) (c : FiberCtx) : Op
  | shutdown (v : ClientId) : Op

/-- One operation as a transition of the process state. -/
def step (w : World) : Op → World
  | Op.middleware v => (Middleware w v).1
  | Op.startOnce v => startBackgroundRefreshOnce w v
  | Op.request v validate next c => (handler validate next v w c).1
  | Op.shutdown v => ShutdownBackgroundRefresh w v

/-- A sequence of operations, in order. -/
def run (w : World) (ops : List Op) : World :=
  ops.foldl step w

/-- Number of `StartBackgroundRefresh` calls in a trace. -/
def startCalls (t : List Event) : Nat :=
  t.countP fun e => match e with
    | Event.startCall _ _ => true
    | _ => false

/-- Number of background tasks launched in a trace. -/
def launches (t : List Event) : Nat :=
  t.countP fun e => match e with
    | Event.launch _ _ => true
    | _ => false

/-- Number of calls of cancel function `f` in a trace. -/
def cancelCalls (f : Option Handle) (t : List Event) : Nat :=
  t.count (Event.cancelCall f)

/-- Lifecycle consistency: `started` holds exactly when a handle is stored. -/
def BgConfig.consistent (b : BgConfig) : Prop :=
  b.started = true ↔ b.cancel ≠ none

instance (b : BgConfig) : Decidable b.consistent := by
  unfold BgConfig.consistent; infer_instance

/-- Recognises a call of a cancel function. -/
def Event.isCancelCall : Event → Bool
  | Event.cancelCall _ => true
  | _ => false

/-- A process in which client 0 has a running lifecycle holding handle 3 and
the once-guard is set. -/
def runningWorld : World :=
  { bgRefreshStarted := true
    bgConfig := fun v => if v = 0 then { started := true, cancel := some 3 }
      else { started := false, cancel := none }
    cliTimeout := fun _ => 5000000000
    nextHandle := 4
    trace := [] }

/-- Every stored cancel function was allocated before `nextHandle`. -/
def World.handlesAllocated (w : World) : Prop :=
  ∀ v h, (w.bgConfig v).cancel = some h → h < w.nextHandle


/-- Recognises entry into `Validate`. -/
def Event.isValidateCall : Event → Bool
  | Event.validateCall _ _ => true
  | _ => false

/-- A request on request context 1 with an empty response under construction. -/
def sampleRequest : FiberCtx :=
  { context := Context.request 1, status := 200, headers := [], body := "" }

/-- A downstream handler that writes the body `ok` and returns nil. -/
def sampleNext : NextHandler :=
  fun c => ({ c with body := "ok" }, none)

/-! ## Shared lemmas -/

theorem newEvents_append (w w2 : World) (evs : List Event)
    (h : w2.trace = w.trace ++ evs) : newEvents w w2 = evs := by
  simp [newEvents, h]

theorem newEvents_self (w : World) : newEvents w w = [] := by
  simp [newEvents]

/-- Shutdown on a lifecycle that is not started returns the state as it is. -/
theorem shutdown_not_started (w : World) (v : ClientId)
    (h : (w.bgConfig v).started = false) : ShutdownBackgroundRefresh w v = w := by
  simp [ShutdownBackgroundRefresh, h]

/-- Shutdown on a started lifecycle that holds handle `k`. -/
theorem shutdown_started_some (w : World) (v : ClientId) (k : Handle)
    (hs : (w.bgConfig v).started = true) (hc : (w.bgConfig v).cancel = some k) :
    ShutdownBackgroundRefresh w v =
      { w with
        trace := w.trace ++ [Event.cancelCall (some k),
          Event.log "[license-sdk] Background license validation stopped"]
        bgConfig := Function.update w.bgConfig v { started := false, cancel := none } } := by
  simp [ShutdownBackgroundRefresh, hs, hc]

/-- Shutdown on a started lifecycle whose handle is nil. -/
theorem shutdown_started_none (w : World) (v : ClientId)
    (hs : (w.bgConfig v).started = true) (hc : (w.bgConfig v).cancel = none) :
    ShutdownBackgroundRefresh w v =
      { w with
        bgConfig := Function.update w.bgConfig v { started := false, cancel := none } } := by
  simp [ShutdownBackgroundRefresh, hs, hc]

/-- After shutdown the lifecycle of `v` is not started. -/
theorem shutdown_started_false (w : World) (v : ClientId) :
    ((ShutdownBackgroundRefresh w v).bgConfig v).started = false := by
  cases hs : (w.bgConfig v).started
  · rw [shutdown_not_started w v hs]; exact hs
  · cases hc : (w.bgConfig v).cancel with
    | none => rw [shutdown_started_none w v hs hc]; simp
    | some k => rw [shutdown_started_some w v k hs hc]; simp

/-! ## Stopping the lifecycle -/

/-- C5 (idempotent stop). For every state, `ShutdownBackgroundRefresh` on a
lifecycle with `started = false` returns the state unchanged (fields and trace,
so no handle is called); two consecutive calls end in the same state as one
call; over both calls at most one cancel function is called, every call made
is a call of the handle that was stored, and nil is never called. -/
theorem shutdown_idempotent (w : World) (v : ClientId) :
    ((w.bgConfig v).started = false → ShutdownBackgroundRefresh w v = w) ∧
    ShutdownBackgroundRefresh (ShutdownBackgroundRefresh w v) v
      = ShutdownBackgroundRefresh w v ∧
    (newEvents w (ShutdownBackgroundRefresh (ShutdownBackgroundRefresh w v) v)).countP
      Event.isCancelCall ≤ 1 ∧
    (∀ f, Event.cancelCall f ∈
        newEvents w (ShutdownBackgroundRefresh (ShutdownBackgroundRefresh w v) v) →
      f = (w.bgConfig v).cancel ∧ f ≠ none) ∧
    Event.cancelCall none ∉
      newEvents w (ShutdownBackgroundRefresh (ShutdownBackgroundRefresh w v) v) := by
  have h2 : ShutdownBackgroundRefresh (ShutdownBackgroundRefresh w v) v
      = ShutdownBackgroundRefresh w v :=
    shutdown_not_started _ v (shutdown_started_false w v)
  refine ⟨shutdown_not_started w v, h2, ?_⟩
  rw [h2]
  cases hs : (w.bgConfig v).started
  · rw [shutdown_not_started w v hs, newEvents_self]; simp
  · cases hc : (w.bgConfig v).cancel with
    | none =>
      rw [shutdown_started_none w v hs hc, newEvents_append w _ [] (by simp)]; simp
    | some k =>
      rw [shutdown_started_some w v k hs hc, newEvents_append w _ _ rfl]
      simp [Event.isCancelCall, List.countP_cons]

/-- Witness for C5 on a running lifecycle and on the initial state. -/
theorem shutdown_idempotent_witness :
    ShutdownBackgroundRefresh (World.init fun _ => 0) 0 = World.init (fun _ => 0) ∧
    (newEvents runningWorld
      (ShutdownBackgroundRefresh (ShutdownBackgroundRefresh runningWorld 0) 0)).countP
      Event.isCancelCall ≤ 1 ∧
    Event.cancelCall none ∉ newEvents runningWorld
      (ShutdownBackgroundRefresh (ShutdownBackgroundRefresh runningWorld 0) 0) :=
  ⟨(shutdown_idempotent (World.init fun _ => 0) 0).1 rfl,
   (shutdown_idempotent runningWorld 0).2.2.1,
   (shutdown_idempotent runningWorld 0).2.2.2.2⟩

/-- C6 (stop transition and lifecycle invariant). From every state in which the
lifecycle of `v` is consistent, `ShutdownBackgroundRefresh` ends with
`started = false` and no handle, which is consistent again; and when the
lifecycle was running, the stored handle is present and is called exactly once,
with no other cancel function called. -/
theorem shutdown_restores_stopped (w : World) (v : ClientId)
    (hinv : (w.bgConfig v).consistent) :
    ((ShutdownBackgroundRefresh w v).bgConfig v).started = false ∧
    ((ShutdownBackgroundRefresh w v).bgConfig v).cancel = none ∧
    ((ShutdownBackgroundRefresh w v).bgConfig v).consistent ∧
    ((w.bgConfig v).started = true →
      (w.bgConfig v).cancel ≠ none ∧
      (newEvents w (ShutdownBackgroundRefresh w v)).filter Event.isCancelCall
        = [Event.cancelCall (w.bgConfig v).cancel]) := by
  unfold BgConfig.consistent at hinv ⊢
  cases hs : (w.bgConfig v).started
  · have hc : (w.bgConfig v).cancel = none := by
      by_contra hne
      have := hinv.2 hne
      simp [hs] at this
    rw [shutdown_not_started w v hs]
    simp [hs, hc]
  · have hne : (w.bgConfig v).cancel ≠ none := hinv.1 hs
    cases hc : (w.bgConfig v).cancel with
    | none => exact absurd hc hne
    | some k =>
      rw [shutdown_started_some w v k hs hc, newEvents_append w _ _ rfl]
      simp [Event.isCancelCall, List.filter_cons]

/-- Witness for C6 on a running lifecycle. -/
theorem shutdown_restores_stopped_witness :
    (runningWorld.bgConfig 0).consistent ∧
    ((ShutdownBackgroundRefresh runningWorld 0).bgConfig 0).started = false ∧
    ((ShutdownBackgroundRefresh runningWorld 0).bgConfig 0).cancel = none ∧
    (newEvents runningWorld (ShutdownBackgroundRefresh runningWorld 0)).filter
      Event.isCancelCall = [Event.cancelCall (some 3)] :=
  ⟨by decide,
   (shutdown_restores_stopped runningWorld 0 (by decide)).1,
   (shutdown_restores_stopped runningWorld 0 (by decide)).2.1,
   ((shutdown_restores_stopped runningWorld 0 (by decide)).2.2.2 rfl).2⟩

/-! ## The once-guard -/

/-- With the guard set, the once-guard does nothing. -/
theorem startOnce_guarded (w : World) (v : ClientId) (hg : w.bgRefreshStarted = true) :
    startBackgroundRefreshOnce w v = w := by
  simp [startBackgroundRefreshOnce, hg]

/-- With the guard clear and the lifecycle of `v` stopped, the once-guard sets
the guard, calls `StartBackgroundRefresh`, and that call launches the task. -/
theorem startOnce_first_stopped (w : World) (v : ClientId)
    (hg : w.bgRefreshStarted = false) (hs : (w.bgConfig v).started = false) :
    startBackgroundRefreshOnce w v =
      { w with
        bgRefreshStarted := true
        nextHandle := w.nextHandle + 1
        bgConfig := Function.update w.bgConfig v
          { started := true, cancel := some w.nextHandle }
        trace := w.trace ++ [Event.startCall v Context.background,
          Event.launch v (Context.withCancel Context.background)] } := by
  simp [startBackgroundRefreshOnce, StartBackgroundRefresh, hg, hs]

/-- With the guard clear and the lifecycle of `v` already started, the
once-guard sets the guard and calls `StartBackgroundRefresh`, which is a no-op. -/
theorem startOnce_first_running (w : World) (v : ClientId)
    (hg : w.bgRefreshStarted = false) (hs : (w.bgConfig v).started = true) :
    startBackgroundRefreshOnce w v =
      { w with
        bgRefreshStarted := true
        trace := w.trace ++ [Event.startCall v Context.background] } := by
  simp [startBackgroundRefreshOnce, StartBackgroundRefresh, hg, hs]

/-- The guard is set after the once-guard ran. -/
theorem startOnce_sets_guard (w : World) (v : ClientId) :
    (startBackgroundRefreshOnce w v).bgRefreshStarted = true := by
  cases hg : w.bgRefreshStarted
  · cases hs : (w.bgConfig v).started
    · rw [startOnce_first_stopped w v hg hs]
    · rw [startOnce_first_running w v hg hs]
  · rw [startOnce_guarded w v hg]; exact hg

/-- Any number of `Middleware` calls on a state with the guard set change nothing. -/
theorem run_middleware_guarded (vs : List ClientId) (w : World)
    (hg : w.bgRefreshStarted = true) : run w (vs.map Op.middleware) = w := by
  induction vs with
  | nil => rfl
  | cons a as ih =>
    simp only [List.map_cons, run, List.foldl_cons, step, Middleware]
    rw [startOnce_guarded w a hg]
    exact ih

/-- C4 (idempotent start). From a state with `bgRefreshStarted = false`, for
every non-empty sequence `v :: vs` of clients whose `Middleware` calls pass
through the critical section in that order: the first call invokes
`StartBackgroundRefresh` once (on `v`), all later calls leave the state as the
first call left it, the guard ends true and `StartBackgroundRefresh` was
invoked exactly once overall; and when the lifecycle of `v` was stopped,
exactly one background task was launched and the lifecycle ends started with a
handle present. -/
theorem middleware_starts_once (w : World) (v : ClientId) (vs : List ClientId)
    (hg : w.bgRefreshStarted = false) :
    startCalls (newEvents w (Middleware w v).1) = 1 ∧
    Event.startCall v Context.background ∈ newEvents w (Middleware w v).1 ∧
    run w ((v :: vs).map Op.middleware) = (Middleware w v).1 ∧
    (run w ((v :: vs).map Op.middleware)).bgRefreshStarted = true ∧
    startCalls (newEvents w (run w ((v :: vs).map Op.middleware))) = 1 ∧
    ((w.bgConfig v).started = false →
      launches (newEvents w (run w ((v :: vs).map Op.middleware))) = 1 ∧
      ((run w ((v :: vs).map Op.middleware)).bgConfig v).started = true ∧
      ((run w ((v :: vs).map Op.middleware)).bgConfig v).cancel ≠ none) := by
  have hrun : run w ((v :: vs).map Op.middleware) = (Middleware w v).1 := by
    simp only [List.map_cons, run, List.foldl_cons, step]
    exact run_middleware_guarded vs _ (startOnce_sets_guard w v)
  rw [hrun]
  simp only [Middleware]
  cases hs : (w.bgConfig v).started
  · rw [startOnce_first_stopped w v hg hs, newEvents_append w _ _ rfl]
    simp [startCalls, launches, List.countP_cons]
  · rw [startOnce_first_running w v hg hs, newEvents_append w _ _ rfl]
    simp [startCalls, List.countP_cons]

/-- Witness for C4: three `Middleware` calls on clients 2, 5, 2 from process
initialisation. -/
theorem middleware_starts_once_witness :
    startCalls (newEvents (World.init fun _ => 0)
      (run (World.init fun _ => 0) ([2, 5, 2].map Op.middleware))) = 1 ∧
    launches (newEvents (World.init fun _ => 0)
      (run (World.init fun _ => 0) ([2, 5, 2].map Op.middleware))) = 1 ∧
    ((run (World.init fun _ => 0) ([2, 5, 2].map Op.middleware)).bgConfig 2).started = true ∧
    ((run (World.init fun _ => 0) ([2, 5, 2].map Op.middleware)).bgConfig 2).cancel ≠ none :=
  ⟨(middleware_starts_once (World.init fun _ => 0) 2 [5, 2] rfl).2.2.2.2.1,
   ((middleware_starts_once (World.init fun _ => 0) 2 [5, 2] rfl).2.2.2.2.2 rfl).1,
   ((middleware_starts_once (World.init fun _ => 0) 2 [5, 2] rfl).2.2.2.2.2 rfl).2.1,
   ((middleware_starts_once (World.init fun _ => 0) 2 [5, 2] rfl).2.2.2.2.2 rfl).2.2⟩

/-! ## The handler body, case by case -/

/-- Body of the handler when `Validate` returns an error. -/
theorem handlerBody_error (validate : Validator) (next : NextHandler) (v : ClientId)
    (ctx : Context) (c : FiberCtx) (msg : String)
    (h : validate ctx = Except.error msg) :
    handlerBody validate next v ctx c =
      ([Event.validateCall v ctx, Event.validateReturn v,
        Event.log ("[license-sdk] License validation failed: " ++ msg),
        Event.status 401,
        Event.json (jsonObject1 "error" "License validation failed")],
       { (c.Set "Content-Type" "application/json") with
         status := 401
         body := jsonObject1 "error" "License validation failed" },
       none) := by
  simp [handlerBody, h, FiberCtx.JSON, FiberCtx.Status, FiberCtx.Set]

/-- Body of the handler when `Validate` succeeds with `Valid = false`. -/
theorem handlerBody_invalid (validate : Validator) (next : NextHandler) (v : ClientId)
    (ctx : Context) (c : FiberCtx) (n : Int)
    (h : validate ctx = Except.ok { Valid := false, ExpiryDaysLeft := n }) :
    handlerBody validate next v ctx c =
      ([Event.validateCall v ctx, Event.validateReturn v,
        Event.log ("[license-sdk] Invalid license detected (expires in "
          ++ sprintfD n ++ " days)"),
        Event.status 403,
        Event.json (jsonObject1 "error" "Invalid license")],
       { (c.Set "Content-Type" "application/json") with
         status := 403
         body := jsonObject1 "error" "Invalid license" },
       none) := by
  simp [handlerBody, h, FiberCtx.JSON, FiberCtx.Status, FiberCtx.Set]

/-- Body of the handler when `Validate` succeeds with `Valid = true`. -/
theorem handlerBody_valid (validate : Validator) (next : NextHandler) (v : ClientId)
    (ctx : Context) (c : FiberCtx) (n : Int)
    (h : validate ctx = Except.ok { Valid := true, ExpiryDaysLeft := n }) :
    handlerBody validate next v ctx c =
      ([Event.validateCall v ctx, Event.validateReturn v,
        Event.setHeader "X-License-Expiry-Days" (sprintfD n),
        Event.next],
       (next (c.Set "X-License-Expiry-Days" (sprintfD n))).1,
       (next (c.Set "X-License-Expiry-Days" (sprintfD n))).2) := by
  simp [handlerBody, h]

/-- The effects of the body are, in this order: entering `Validate`, returning
from it, and then events that are none of: a cancel call, a
`StartBackgroundRefresh` call, a task launch, a second `Validate` call. -/
theorem handlerBody_events (validate : Validator) (next : NextHandler) (v : ClientId)
    (ctx : Context) (c : FiberCtx) :
    ∃ rest : List Event,
      (handlerBody validate next v ctx c).1
        = Event.validateCall v ctx :: Event.validateReturn v :: rest ∧
      (∀ f, Event.cancelCall f ∉ rest) ∧
      (∀ u k, Event.validateCall u k ∉ rest) ∧
      startCalls rest = 0 ∧ launches rest = 0 := by
  cases hv : validate ctx with
  | error msg =>
    rw [handlerBody_error validate next v ctx c msg hv]
    exact ⟨_, rfl, by simp, by simp, by simp [startCalls], by simp [launches]⟩
  | ok res =>
    obtain ⟨valid, n⟩ := res
    cases valid
    · rw [handlerBody_invalid validate next v ctx c n hv]
      exact ⟨_, rfl, by simp, by simp, by simp [startCalls], by simp [launches]⟩
    · rw [handlerBody_valid validate next v ctx c n hv]
      exact ⟨_, rfl, by simp, by simp, by simp [startCalls], by simp [launches]⟩

/-- The trace after the handler: the `WithTimeout` call, the body's effects,
and the deferred cancel last. -/
theorem handler_trace (validate : Validator) (next : NextHandler) (v : ClientId)
    (w : World) (c : FiberCtx) :
    newEvents w (handler validate next v w c).1 =
      Event.withTimeout c.context (w.cliTimeout v) w.nextHandle ::
        ((handlerBody validate next v
            (Context.withTimeout c.context (w.cliTimeout v)) c).1
          ++ [Event.cancelCall (some w.nextHandle)]) := by
  apply newEvents_append
  simp [handler]

/-- With the guard set, no operation clears it, calls `StartBackgroundRefresh`
or launches a task. -/
theorem step_guarded (w : World) (op : Op) (hg : w.bgRefreshStarted = true) :
    (step w op).bgRefreshStarted = true ∧
    ∃ evs, (step w op).trace = w.trace ++ evs ∧ startCalls evs = 0 ∧ launches evs = 0 := by
  cases op with
  | middleware v =>
    simp only [step, Middleware]
    rw [startOnce_guarded w v hg]
    exact ⟨hg, [], by simp, rfl, rfl⟩
  | startOnce v =>
    simp only [step]
    rw [startOnce_guarded w v hg]
    exact ⟨hg, [], by simp, rfl, rfl⟩
  | request v validate next c =>
    obtain ⟨rest, hb, -, -, hsc, hl⟩ := handlerBody_events validate next v
      (Context.withTimeout c.context (w.cliTimeout v)) c
    refine ⟨hg, _, by simp only [step, handler, List.append_assoc]; rfl, ?_, ?_⟩
    · rw [hb]; simpa [startCalls, List.countP_cons] using hsc
    · rw [hb]; simpa [launches, List.countP_cons] using hl
  | shutdown v =>
    simp only [step]
    cases hs : (w.bgConfig v).started
    · rw [shutdown_not_started w v hs]
      exact ⟨hg, [], by simp, rfl, rfl⟩
    · cases hc : (w.bgConfig v).cancel with
      | none =>
        rw [shutdown_started_none w v hs hc]
        exact ⟨hg, [], by simp, rfl, rfl⟩
      | some k =>
        rw [shutdown_started_some w v k hs hc]
        exact ⟨hg, _, rfl, by simp [startCalls], by simp [launches]⟩

/-- With the guard set, no sequence of operations clears it, calls
`StartBackgroundRefresh` or launches a task. -/
theorem run_guarded (ops : List Op) (w : World) (hg : w.bgRefreshStarted = true) :
    (run w ops).bgRefreshStarted = true ∧
    ∃ evs, (run w ops).trace = w.trace ++ evs ∧ startCalls evs = 0 ∧ launches evs = 0 := by
  induction ops generalizing w with
  | nil => exact ⟨hg, [], by simp [run], rfl, rfl⟩
  | cons op ops ih =>
    obtain ⟨hg1, e1, ht1, hs1, hl1⟩ := step_guarded w op hg
    obtain ⟨hg2, e2, ht2, hs2, hl2⟩ := ih (step w op) hg1
    refine ⟨hg2, e1 ++ e2, ?_, ?_, ?_⟩
    · show (run (step w op) ops).trace = _
      rw [ht2, ht1, List.append_assoc]
    · simp only [startCalls, List.countP_append] at hs1 hs2 ⊢; omega
    · simp only [launches, List.countP_append] at hl1 hl2 ⊢; omega

theorem startCalls_append (a b : List Event) :
    startCalls (a ++ b) = startCalls a + startCalls b := by
  simp [startCalls, List.countP_append]

/-- Invariant of every operation: `StartBackgroundRefresh` has been called at
most once, and not at all while the guard is clear. -/
theorem step_startCalls (w : World) (op : Op)
    (h : startCalls w.trace ≤ w.bgRefreshStarted.toNat) :
    startCalls (step w op).trace ≤ (step w op).bgRefreshStarted.toNat := by
  have once : ∀ v, startCalls (startBackgroundRefreshOnce w v).trace
      ≤ (startBackgroundRefreshOnce w v).bgRefreshStarted.toNat := by
    intro v
    cases hg : w.bgRefreshStarted
    · rw [hg, Bool.toNat_false] at h
      cases hs : (w.bgConfig v).started
      · rw [startOnce_first_stopped w v hg hs]
        show startCalls (w.trace ++ [_, _]) ≤ 1
        rw [startCalls_append]
        have : startCalls [Event.startCall v Context.background,
          Event.launch v (Context.withCancel Context.background)] = 1 := rfl
        omega
      · rw [startOnce_first_running w v hg hs]
        show startCalls (w.trace ++ [_]) ≤ 1
        rw [startCalls_append]
        have : startCalls [Event.startCall v Context.background] = 1 := rfl
        omega
    · rw [startOnce_guarded w v hg]; exact h
  cases op with
  | middleware v => exact once v
  | startOnce v => exact once v
  | request v validate next c =>
    obtain ⟨rest, hb, -, -, hsc, -⟩ := handlerBody_events validate next v
      (Context.withTimeout c.context (w.cliTimeout v)) c
    show startCalls (w.trace ++ [_] ++ _ ++ [_]) ≤ w.bgRefreshStarted.toNat
    rw [hb, startCalls_append, startCalls_append, startCalls_append]
    have h1 : startCalls (Event.validateCall v
        (Context.withTimeout c.context (w.cliTimeout v)) :: Event.validateReturn v :: rest)
        = startCalls rest := by
      simp [startCalls, List.countP_cons]
    have h2 : startCalls [Event.withTimeout c.context (w.cliTimeout v) w.nextHandle] = 0 := rfl
    have h3 : startCalls [Event.cancelCall (some w.nextHandle)] = 0 := rfl
    omega
  | shutdown v =>
    simp only [step]
    cases hs : (w.bgConfig v).started
    · rw [shutdown_not_started w v hs]; exact h
    · cases hc : (w.bgConfig v).cancel with
      | none => rw [shutdown_started_none w v hs hc]; exact h
      | some k =>
        rw [shutdown_started_some w v k hs hc]
        show startCalls (w.trace ++ [_, _]) ≤ w.bgRefreshStarted.toNat
        rw [startCalls_append]
        have : startCalls [Event.cancelCall (some k),
          Event.log "[license-sdk] Background license validation stopped"] = 0 := rfl
        omega

/-- The invariant of `step_startCalls` along a sequence of operations. -/
theorem run_startCalls (ops : List Op) (w : World)
    (h : startCalls w.trace ≤ w.bgRefreshStarted.toNat) :
    startCalls (run w ops).trace ≤ (run w ops).bgRefreshStarted.toNat := by
  induction ops generalizing w with
  | nil => exact h
  | cons op ops ih => exact ih (step w op) (step_startCalls w op h)

/-! ## Decimal rendering -/

theorem digitChar_facts (k : Nat) (hk : k < 10) :
    digitVal (Nat.digitChar k) = k ∧ (Nat.digitChar k).isDigit = true := by
  interval_cases k <;> exact ⟨by decide, by decide⟩

theorem fmtDigits_buf (fuel : Nat) : ∀ (u : Nat) (buf : List Char),
    fmtDigits fuel u buf = fmtDigits fuel u [] ++ buf := by
  induction fuel with
  | zero => intro u buf; simp [fmtDigits]
  | succ f ih =>
    intro u buf
    simp only [fmtDigits]
    split
    · rw [ih (u / 10) (_ :: buf), ih (u / 10) [_]]; simp
    · simp

theorem parseNat_snoc (xs : List Char) (d : Char) :
    parseNat (xs ++ [d]) = 10 * parseNat xs + digitVal d := by
  simp [parseNat, List.foldl_append]

theorem fmtDigits_spec (fuel : Nat) : ∀ u, u ≤ fuel →
    parseNat (fmtDigits fuel u []) = u ∧ (fmtDigits fuel u []).all Char.isDigit = true
      ∧ fmtDigits fuel u [] ≠ [] := by
  induction fuel with
  | zero =>
    intro u hu
    have : u = 0 := by omega
    subst this
    exact ⟨by decide, by decide, by decide⟩
  | succ f ih =>
    intro u hu
    simp only [fmtDigits]
    split
    · rename_i h10
      obtain ⟨h1, h2, h3⟩ := ih (u / 10) (by omega)
      obtain ⟨d1, d2⟩ := digitChar_facts (u % 10) (Nat.mod_lt _ (by norm_num))
      rw [fmtDigits_buf]
      refine ⟨?_, ?_, by simp⟩
      · rw [parseNat_snoc, h1, d1]; omega
      · rw [List.all_append, h2]; simp [d2]
    · rename_i h10
      obtain ⟨d1, d2⟩ := digitChar_facts u (by omega)
      exact ⟨by simp [parseNat, d1], by simp [d2], by simp⟩

theorem parseDecimal_digits (ds : List Char) (hne : ds ≠ [])
    (hall : ds.all Char.isDigit = true) :
    parseDecimal (String.mk ds) = some (parseNat ds : Int) := by
  cases ds with
  | nil => exact absurd rfl hne
  | cons c cs =>
    have hc : c ≠ '-' := by
      intro h
      subst h
      simp at hall
    unfold parseDecimal
    split
    · rename_i h; simp at h
    · rename_i ds2 h; exact absurd (List.cons.inj h).1 hc
    · simp_all

theorem parseDecimal_sprintfD (n : Int) : parseDecimal (sprintfD n) = some n := by
  obtain ⟨h1, h2, h3⟩ := fmtDigits_spec n.natAbs n.natAbs (le_refl _)
  unfold sprintfD
  by_cases hn : n < 0
  · simp only [hn, if_true]
    simp only [parseDecimal]
    simp [h2, h3, h1]
    rw [abs_of_neg hn, neg_neg]
  · simp only [hn, if_false]
    rw [parseDecimal_digits _ h3 h2, h1]
    simp; omega

/-! ## Response headers -/

/-- Setting one header leaves every other header as it was. -/
theorem header_Set_other (c : FiberCtx) (key k2 value : String) (hne : key ≠ k2) :
    (c.Set k2 value).header key = c.header key := by
  have hfilter : ∀ hs : List (String × String),
      (hs.filter (fun p => p.1 != k2)).lookup key = hs.lookup key := by
    intro hs
    induction hs with
    | nil => rfl
    | cons p ps ih =>
      obtain ⟨a, b⟩ := p
      by_cases hk : a = k2
      · subst hk
        have hka : (key == a) = false := by simpa using hne
        simp [List.filter_cons, List.lookup_cons, hka, ih]
      · have hk2 : (a != k2) = true := by simpa using hk
        simp only [List.filter_cons, hk2, if_true, List.lookup_cons, ih]
  have hk : (key == k2) = false := by simpa using hne
  simp only [FiberCtx.header, FiberCtx.Set, List.lookup_cons, hk]
  exact hfilter c.headers

/-- A header that was set reads back the value given. -/
theorem header_Set_same (c : FiberCtx) (key value : String) :
    (c.Set key value).header key = some value := by
  simp [FiberCtx.header, FiberCtx.Set, List.lookup_cons]

/-! ## Allocation of cancel functions -/

/-- At process initialisation no cancel function is stored. -/
theorem init_handlesAllocated (timeout : ClientId → Int) :
    (World.init timeout).handlesAllocated := by
  intro v h hc
  simp [World.init] at hc

/-- Every operation keeps the stored cancel functions below the allocator. -/
theorem step_handlesAllocated (w : World) (op : Op) (hw : w.handlesAllocated) :
    (step w op).handlesAllocated := by
  have once : ∀ v, (startBackgroundRefreshOnce w v).handlesAllocated := by
    intro v
    cases hg : w.bgRefreshStarted
    · cases hs : (w.bgConfig v).started
      · rw [startOnce_first_stopped w v hg hs]
        intro u h hc
        by_cases huv : u = v
        · subst huv
          simp only [Function.update_same, Option.some.injEq] at hc
          exact hc ▸ Nat.lt_succ_self w.nextHandle
        · simp only [Function.update_noteq huv] at hc
          exact Nat.lt_succ_of_lt (hw u h hc)
      · rw [startOnce_first_running w v hg hs]; exact hw
    · rw [startOnce_guarded w v hg]; exact hw
  cases op with
  | middleware v => exact once v
  | startOnce v => exact once v
  | request v validate next c =>
    intro u h hc
    exact Nat.lt_succ_of_lt (hw u h hc)
  | shutdown v =>
    simp only [step]
    cases hs : (w.bgConfig v).started
    · rw [shutdown_not_started w v hs]; exact hw
    · have hupd : ∀ (w2 : World), w2.nextHandle = w.nextHandle →
          w2.bgConfig = Function.update w.bgConfig v { started := false, cancel := none } →
          w2.handlesAllocated := by
        intro w2 hn hb u h hc
        rw [hb] at hc
        by_cases huv : u = v
        · subst huv; simp at hc
        · rw [Function.update_noteq huv] at hc
          rw [hn]; exact hw u h hc
      cases hc : (w.bgConfig v).cancel with
      | none => rw [shutdown_started_none w v hs hc]; exact hupd _ rfl rfl
      | some k => rw [shutdown_started_some w v k hs hc]; exact hupd _ rfl rfl

/-- Every state reached from process initialisation keeps the stored cancel
functions below the allocator. -/
theorem run_handlesAllocated (ops : List Op) (w : World) (hw : w.handlesAllocated) :
    (run w ops).handlesAllocated := by
  induction ops generalizing w with
  | nil => exact hw
  | cons op ops ih => exact ih (step w op) (step_handlesAllocated w op hw)

/-! ## The start guard over whole executions -/

/-- C7 (the start guard is never reset). No operation of the package
(`Middleware`, `startBackgroundRefreshOnce`, the handler,
`ShutdownBackgroundRefresh`) turns `bgRefreshStarted` from true to false; in
every sequence of operations from process initialisation
`StartBackgroundRefresh` is called at most once; once the guard is set no
sequence of operations calls it or launches a task; and a `Middleware` call
after `ShutdownBackgroundRefresh` leaves the state exactly as the shutdown left
it. -/
theorem guard_never_reset :
    (∀ (w : World) (op : Op), w.bgRefreshStarted = true →
      (step w op).bgRefreshStarted = true) ∧
    (∀ (timeout : ClientId → Int) (ops : List Op),
      startCalls (run (World.init timeout) ops).trace ≤ 1) ∧
    (∀ (w : World) (ops : List Op), w.bgRefreshStarted = true →
      (run w ops).bgRefreshStarted = true ∧
      startCalls (newEvents w (run w ops)) = 0 ∧
      launches (newEvents w (run w ops)) = 0) ∧
    (∀ (w : World) (v v2 : ClientId), w.bgRefreshStarted = true →
      (Middleware (ShutdownBackgroundRefresh w v) v2).1 = ShutdownBackgroundRefresh w v) := by
  refine ⟨fun w op hg => (step_guarded w op hg).1, ?_, ?_, ?_⟩
  · intro timeout ops
    have h := run_startCalls ops (World.init timeout) (by simp [World.init, startCalls])
    have hb : (run (World.init timeout) ops).bgRefreshStarted.toNat ≤ 1 :=
      Bool.toNat_le _
    omega
  · intro w ops hg
    obtain ⟨hg1, evs, ht, hs, hl⟩ := run_guarded ops w hg
    rw [newEvents_append w _ evs ht]
    exact ⟨hg1, hs, hl⟩
  · intro w v v2 hg
    exact startOnce_guarded _ v2 (step_guarded w (Op.shutdown v) hg).1

/-- Witness for C7: from process initialisation, `Middleware`, a request,
`ShutdownBackgroundRefresh`, then `Middleware` again. -/
theorem guard_never_reset_witness :
    startCalls (run (World.init fun _ => 0)
      [Op.middleware 0, Op.request 0 (fun _ => Except.error "down") sampleNext sampleRequest,
       Op.shutdown 0, Op.middleware 0]).trace ≤ 1 ∧
    (Middleware (ShutdownBackgroundRefresh runningWorld 0) 0).1
      = ShutdownBackgroundRefresh runningWorld 0 ∧
    (step runningWorld (Op.shutdown 0)).bgRefreshStarted = true :=
  ⟨guard_never_reset.2.1 (fun _ => 0) _,
   guard_never_reset.2.2.2 runningWorld 0 0 rfl,
   guard_never_reset.1 runningWorld (Op.shutdown 0) rfl⟩

/-! ## The per-request handler -/

/-- C8 (the gate never stops the lifecycle). For every state whose stored
cancel functions were allocated earlier (true of every reachable state, see
`run_handlesAllocated`), every request and every `Validate` outcome, the
handler leaves every `bgConfig` and `bgRefreshStarted` unchanged, calls no
cancel function stored in any lifecycle and never calls nil; and its response
and returned error are the same in every other process state with the same
configured timeout and the same `Validate` outcome. -/
theorem handler_preserves_lifecycle (validate : Validator) (next : NextHandler)
    (v : ClientId) (w : World) (c : FiberCtx) (hw : w.handlesAllocated) :
    (handler validate next v w c).1.bgConfig = w.bgConfig ∧
    (handler validate next v w c).1.bgRefreshStarted = w.bgRefreshStarted ∧
    (∀ u h, (w.bgConfig u).cancel = some h →
      Event.cancelCall (some h) ∉ newEvents w (handler validate next v w c).1) ∧
    Event.cancelCall none ∉ newEvents w (handler validate next v w c).1 ∧
    (∀ (w2 : World) (validate2 : Validator),
      w2.cliTimeout v = w.cliTimeout v →
      validate2 (Context.withTimeout c.context (w.cliTimeout v))
        = validate (Context.withTimeout c.context (w.cliTimeout v)) →
      (handler validate2 next v w2 c).2 = (handler validate next v w c).2) := by
  obtain ⟨rest, hb, hnc, -, -, -⟩ := handlerBody_events validate next v
    (Context.withTimeout c.context (w.cliTimeout v)) c
  refine ⟨rfl, rfl, ?_, ?_, ?_⟩
  · intro u h hc hmem
    have hlt : h < w.nextHandle := hw u h hc
    rw [handler_trace, hb] at hmem
    simp only [List.mem_cons, List.mem_append, List.mem_singleton, Event.cancelCall.injEq,
      Option.some.injEq, reduceCtorEq, false_or, List.not_mem_nil, or_false] at hmem
    rcases hmem with hmem | hmem
    · exact hnc _ hmem
    · exact absurd hmem (Nat.ne_of_lt hlt)
  · intro hmem
    rw [handler_trace, hb] at hmem
    simp only [List.mem_cons, List.mem_append, List.mem_singleton, Event.cancelCall.injEq,
      reduceCtorEq, false_or, List.not_mem_nil, or_false] at hmem
    exact hnc _ hmem
  · intro w2 validate2 ht hv
    simp only [handler, ht]
    simp only [handlerBody, hv]

/-- Witness for C8: a request with a failing `Validate` on a process whose
lifecycle is running. -/
theorem handler_preserves_lifecycle_witness :
    runningWorld.handlesAllocated ∧
    ((handler (fun _ => Except.error "down") sampleNext 0 runningWorld sampleRequest).1.bgConfig 0
      = { started := true, cancel := some 3 }) ∧
    Event.cancelCall (some 3) ∉ newEvents runningWorld
      (handler (fun _ => Except.error "down") sampleNext 0 runningWorld sampleRequest).1 :=
  have hw : runningWorld.handlesAllocated := by
    intro u h hc
    by_cases hu : u = 0
    · subst hu
      have h3 : h = 3 := by simpa [runningWorld] using hc.symm
      subst h3; decide
    · simp [runningWorld, hu] at hc
  ⟨hw,
   congrFun (handler_preserves_lifecycle (fun _ => Except.error "down") sampleNext 0
     runningWorld sampleRequest hw).1 0,
   (handler_preserves_lifecycle (fun _ => Except.error "down") sampleNext 0
     runningWorld sampleRequest hw).2.2.1 0 3 rfl⟩

/-- C9 (no retry). For every request and every `Validate` outcome, the handler
enters `Validate` exactly once, and the context it passes is the one derived by
`context.WithTimeout` from the request's context `c.Context()` with the
configured `v.cli.Timeout`. -/
theorem handler_validates_once (validate : Validator) (next : NextHandler)
    (v : ClientId) (w : World) (c : FiberCtx) :
    (newEvents w (handler validate next v w c).1).filter Event.isValidateCall
      = [Event.validateCall v (Context.withTimeout c.context (w.cliTimeout v))] ∧
    Event.withTimeout c.context (w.cliTimeout v) w.nextHandle
      ∈ newEvents w (handler validate next v w c).1 := by
  obtain ⟨rest, hb, -, hnv, -, -⟩ := handlerBody_events validate next v
    (Context.withTimeout c.context (w.cliTimeout v)) c
  rw [handler_trace, hb]
  constructor
  · have hrest : rest.filter Event.isValidateCall = [] := by
      rw [List.filter_eq_nil_iff]
      intro e he
      cases e with
      | validateCall u k => exact absurd he (hnv u k)
      | _ => simp [Event.isValidateCall]
    simp [List.filter_cons, List.filter_append, Event.isValidateCall, hrest]
  · simp

/-- C10 (release on every exit path). For every request and every `Validate`
outcome (error, invalid, valid), the effects of the handler are: the
`WithTimeout` call returning cancel function `h`, entry into `Validate`, return
from `Validate`, effects that call no cancel function, and last the call of
`h`. So `h` has been called when the handler returns and is not called before
`Validate` has returned. -/
theorem handler_releases_context (validate : Validator) (next : NextHandler)
    (v : ClientId) (w : World) (c : FiberCtx) :
    ∃ mid : List Event,
      newEvents w (handler validate next v w c).1 =
        Event.withTimeout c.context (w.cliTimeout v) w.nextHandle ::
        Event.validateCall v (Context.withTimeout c.context (w.cliTimeout v)) ::
        Event.validateReturn v ::
        (mid ++ [Event.cancelCall (some w.nextHandle)]) ∧
      (∀ f, Event.cancelCall f ∉ mid) := by
  obtain ⟨rest, hb, hnc, -, -, -⟩ := handlerBody_events validate next v
    (Context.withTimeout c.context (w.cliTimeout v)) c
  exact ⟨rest, by rw [handler_trace, hb]; rfl, hnc⟩

/-! ## Decisions -/

/-- C1 (fail-closed). Whenever `Validate` returns an error, whatever its
message, the handler responds with status 401 and the JSON body
`{"error":"License validation failed"}`, returns nil, does not call the next
handler (the result is the same for every next handler), and does not set the
`X-License-Expiry-Days` header. -/
theorem validate_error_denies (validate : Validator) (next : NextHandler)
    (v : ClientId) (w : World) (c : FiberCtx) (msg : String)
    (h : validate (Context.withTimeout c.context (w.cliTimeout v)) = Except.error msg) :
    (handler validate next v w c).2.1.status = 401 ∧
    (handler validate next v w c).2.1.body
      = "\x7b\"error\":\"License validation failed\"\x7d" ∧
    (handler validate next v w c).2.2 = none ∧
    Event.next ∉ newEvents w (handler validate next v w c).1 ∧
    (∀ next2 : NextHandler, handler validate next2 v w c = handler validate next v w c) ∧
    (∀ value, Event.setHeader "X-License-Expiry-Days" value
      ∉ newEvents w (handler validate next v w c).1) ∧
    (handler validate next v w c).2.1.header "X-License-Expiry-Days"
      = c.header "X-License-Expiry-Days" := by
  have hbody : ∀ nx : NextHandler, _ := fun nx =>
    handlerBody_error validate nx v _ c msg h
  refine ⟨?_, ?_, ?_, ?_, ?_, ?_, ?_⟩
  · simp only [handler, hbody next]
  · simp only [handler, hbody next]; decide
  · simp only [handler, hbody next]
  · rw [handler_trace, hbody next]; simp
  · intro next2; simp only [handler, hbody next, hbody next2]
  · intro value; rw [handler_trace, hbody next]; simp
  · simp only [handler, hbody next]
    exact header_Set_other c _ _ _ (by decide)

/-- Witness for C1: `Validate` fails with "network unreachable". -/
theorem validate_error_denies_witness :
    (handler (fun _ => Except.error "network unreachable") sampleNext 0
      runningWorld sampleRequest).2.1.status = 401 ∧
    (handler (fun _ => Except.error "network unreachable") sampleNext 0
      runningWorld sampleRequest).2.1.body
      = "\x7b\"error\":\"License validation failed\"\x7d" :=
  ⟨(validate_error_denies (fun _ => Except.error "network unreachable") sampleNext 0
     runningWorld sampleRequest "network unreachable" rfl).1,
   (validate_error_denies (fun _ => Except.error "network unreachable") sampleNext 0
     runningWorld sampleRequest "network unreachable" rfl).2.1⟩

/-- C2 (invalid license). Whenever `Validate` succeeds with `Valid = false`,
for every `ExpiryDaysLeft`, the handler responds with status 403 and the JSON
body `{"error":"Invalid license"}`, returns nil, does not call the next handler
(the result is the same for every next handler), and does not set the
`X-License-Expiry-Days` header. -/
theorem invalid_license_denies (validate : Validator) (next : NextHandler)
    (v : ClientId) (w : World) (c : FiberCtx) (n : Int)
    (h : validate (Context.withTimeout c.context (w.cliTimeout v))
      = Except.ok { Valid := false, ExpiryDaysLeft := n }) :
    (handler validate next v w c).2.1.status = 403 ∧
    (handler validate next v w c).2.1.body = "\x7b\"error\":\"Invalid license\"\x7d" ∧
    (handler validate next v w c).2.2 = none ∧
    Event.next ∉ newEvents w (handler validate next v w c).1 ∧
    (∀ next2 : NextHandler, handler validate next2 v w c = handler validate next v w c) ∧
    (∀ value, Event.setHeader "X-License-Expiry-Days" value
      ∉ newEvents w (handler validate next v w c).1) ∧
    (handler validate next v w c).2.1.header "X-License-Expiry-Days"
      = c.header "X-License-Expiry-Days" := by
  have hbody : ∀ nx : NextHandler, _ := fun nx =>
    handlerBody_invalid validate nx v _ c n h
  refine ⟨?_, ?_, ?_, ?_, ?_, ?_, ?_⟩
  · simp only [handler, hbody next]
  · simp only [handler, hbody next]; decide
  · simp only [handler, hbody next]
  · rw [handler_trace, hbody next]; simp
  · intro next2; simp only [handler, hbody next, hbody next2]
  · intro value; rw [handler_trace, hbody next]; simp
  · simp only [handler, hbody next]
    exact header_Set_other c _ _ _ (by decide)

/-- Witness for C2: `Valid = false` with `ExpiryDaysLeft = 0`. -/
theorem invalid_license_denies_witness :
    (handler (fun _ => Except.ok { Valid := false, ExpiryDaysLeft := 0 }) sampleNext 0
      runningWorld sampleRequest).2.1.status = 403 ∧
    (handler (fun _ => Except.ok { Valid := false, ExpiryDaysLeft := 0 }) sampleNext 0
      runningWorld sampleRequest).2.1.body = "\x7b\"error\":\"Invalid license\"\x7d" :=
  ⟨(invalid_license_denies (fun _ => Except.ok { Valid := false, ExpiryDaysLeft := 0 })
     sampleNext 0 runningWorld sampleRequest 0 rfl).1,
   (invalid_license_denies (fun _ => Except.ok { Valid := false, ExpiryDaysLeft := 0 })
     sampleNext 0 runningWorld sampleRequest 0 rfl).2.1⟩

/-- C3 (header correctness). Whenever `Validate` succeeds with `Valid = true`
and `ExpiryDaysLeft = n`, the handler sets `X-License-Expiry-Days` to the
decimal rendering of `n` (a string that reads back as `n`), then calls the next
handler on the response carrying that header, exactly once, and returns what
the next handler returns; the handler itself sets no status. -/
theorem valid_license_continues (validate : Validator) (next : NextHandler)
    (v : ClientId) (w : World) (c : FiberCtx) (n : Int)
    (h : validate (Context.withTimeout c.context (w.cliTimeout v))
      = Except.ok { Valid := true, ExpiryDaysLeft := n }) :
    (c.Set "X-License-Expiry-Days" (sprintfD n)).header "X-License-Expiry-Days"
      = some (sprintfD n) ∧
    parseDecimal (sprintfD n) = some n ∧
    (c.Set "X-License-Expiry-Days" (sprintfD n)).status = c.status ∧
    (handler validate next v w c).2 = next (c.Set "X-License-Expiry-Days" (sprintfD n)) ∧
    newEvents w (handler validate next v w c).1 =
      [Event.withTimeout c.context (w.cliTimeout v) w.nextHandle,
       Event.validateCall v (Context.withTimeout c.context (w.cliTimeout v)),
       Event.validateReturn v,
       Event.setHeader "X-License-Expiry-Days" (sprintfD n),
       Event.next,
       Event.cancelCall (some w.nextHandle)] ∧
    (newEvents w (handler validate next v w c).1).count Event.next = 1 ∧
    (∀ code, Event.status code ∉ newEvents w (handler validate next v w c).1) := by
  have hbody := handlerBody_valid validate next v _ c n h
  have htrace : newEvents w (handler validate next v w c).1 =
      [Event.withTimeout c.context (w.cliTimeout v) w.nextHandle,
       Event.validateCall v (Context.withTimeout c.context (w.cliTimeout v)),
       Event.validateReturn v,
       Event.setHeader "X-License-Expiry-Days" (sprintfD n),
       Event.next,
       Event.cancelCall (some w.nextHandle)] := by
    rw [handler_trace, hbody]; rfl
  refine ⟨header_Set_same c _ _, parseDecimal_sprintfD n, rfl, ?_, htrace, ?_, ?_⟩
  · simp only [handler, hbody]
  · rw [htrace]; simp [List.count_cons]
  · intro code; rw [htrace]; simp

/-- Witness for C3: `Valid = true` with `ExpiryDaysLeft = 7` gives the header
value `7`. -/
theorem valid_license_continues_witness :
    sprintfD 7 = "7" ∧
    (sampleRequest.Set "X-License-Expiry-Days" (sprintfD 7)).header "X-License-Expiry-Days"
      = some (sprintfD 7) ∧
    (handler (fun _ => Except.ok { Valid := true, ExpiryDaysLeft := 7 }) sampleNext 0
      runningWorld sampleRequest).2
      = sampleNext (sampleRequest.Set "X-License-Expiry-Days" (sprintfD 7)) :=
  ⟨by decide,
   (valid_license_continues (fun _ => Except.ok { Valid := true, ExpiryDaysLeft := 7 })
     sampleNext 0 runningWorld sampleRequest 7 rfl).1,
   (valid_license_continues (fun _ => Except.ok { Valid := true, ExpiryDaysLeft := 7 })
     sampleNext 0 runningWorld sampleRequest 7 rfl).2.2.2.1⟩

end LicenseGate
